import Mathlib

/-!
Verification development for the serial bridge of esp-usb-bridge-pico
(src/main/serial.c).  The C file is shallowly embedded: each task body or
callback becomes a pure Lean function from an explicit bridge state (plus
environment inputs) to a new state together with a trace of observable
actions (log lines, GPIO writes, delays, flushes, ...).  Machine buffers
are lists of bytes (Nat), the one-shot esp timer is an optional number of
remaining microseconds, and unbounded blocking of a call is represented by
an Option-valued step returning none.
-/

namespace EUB

/-- Observable actions performed by the embedded code, in program order.
A gpioWrite records the consecutive pair of gpio_set_level calls on the
BOOT and RST pins (the source always sets the two together). -/
inductive Action where
  | logWarn : Action
  | logInfo : Action
  | readBytes (n : Nat) : Action
  | pushOk (n : Nat) : Action
  | pushTimeout (free : Nat) : Action
  | flushInput : Action
  | queueReset : Action
  | yield : Action
  | delayMs (ms : Nat) : Action
  | delayUs (us : Nat) : Action
  | gpioWrite (boot rst : Bool) : Action
  | armTimer (us : Nat) : Action
  | stopTimer : Action
  | cdcWrite (n : Nat) : Action
  | cdcFlush : Action
  | ringReceive (n : Nat) : Action
  | memcpy (n : Nat) : Action
  | ringReturn (n : Nat) : Action
deriving DecidableEq, Repr

/-- UART driver events, from the switch in uart_event_task
(serial.c lines 55-93). -/
inductive uart_event_t where
  | UART_DATA (size : Nat) : uart_event_t
  | UART_FIFO_OVF : uart_event_t
  | UART_BUFFER_FULL : uart_event_t
  | UART_BREAK : uart_event_t
  | UART_PARITY_ERR : uart_event_t
  | UART_FRAME_ERR : uart_event_t
  | other (code : Nat) : uart_event_t
deriving DecidableEq, Repr

/-- SLAVE_UART_BUF_SIZE (serial.c line 35). -/
def SLAVE_UART_BUF_SIZE : Nat := 2 * 1024

/-- USB_SEND_RINGBUFFER_SIZE (serial.c line 37). -/
def USB_SEND_RINGBUFFER_SIZE : Nat := SLAVE_UART_BUF_SIZE

/-- Timeout passed to xRingbufferSend at serial.c line 63:
pdMS_TO_TICKS(10), a finite 10 ms bound. -/
def RINGBUF_SEND_TIMEOUT_MS : Nat := 10

/-- Timeout passed to xRingbufferReceiveUpTo at serial.c line 105:
pdMS_TO_TICKS(100), a finite 100 ms bound. -/
def RINGBUF_RECEIVE_TIMEOUT_MS : Nat := 100

/-- Debounce period armed at serial.c line 188: 10 * 1000 microseconds. -/
def STATE_CHANGE_TIMER_US : Nat := 10 * 1000

/-- The mutable state of serial.c plus the buffers of its collaborators.
uartRx models the bytes held by the UART driver receive buffer (from the
target), uartTx the bytes accepted by uart_write_bytes toward the target,
hostRx the bytes pending in the CDC receive fifo, uart_queue the UART
event queue, usb_sendbuf the relay ring buffer, boot and rst the two GPIO
output levels, and timer the remaining microseconds of the one-shot
state_change_timer (none when it is not armed). -/
structure BridgeState where
  serial_init_finished : Bool
  serial_read_enabled : Bool
  uartRx : List Nat
  uartTx : List Nat
  hostRx : List Nat
  uart_queue : List uart_event_t
  usb_sendbuf : List Nat
  boot : Bool
  rst : Bool
  timer : Option Nat
deriving DecidableEq, Repr

/-- tud_cdc_line_state_cb (serial.c lines 159-195).  Before initialization
it only warns.  Otherwise it computes the BOOT and RST levels from the
table at lines 169-179, stops any pending state_change_timer (line 181),
and then either arms the one-shot 10 ms timer for the dtr and rts case
(line 188) or applies the levels to the GPIOs immediately
(lines 190-193). -/
def tud_cdc_line_state_cb (dtr rts : Bool) (s : BridgeState) :
    BridgeState × List Action :=
  if s.serial_init_finished = false then
    (s, [Action.logWarn])
  else
    let rst : Bool := if !dtr && rts then false else true
    let boot : Bool := if dtr && !rts then false else true
    let s1 := { s with timer := none }
    if dtr && rts then
      ({ s1 with timer := some STATE_CHANGE_TIMER_US },
       [Action.stopTimer, Action.armTimer STATE_CHANGE_TIMER_US])
    else
      ({ s1 with boot := boot, rst := rst },
       [Action.stopTimer, Action.logInfo, Action.gpioWrite boot rst])

/-- state_change_timer_cb (serial.c lines 197-202): logs and drives both
GPIO lines high. -/
def state_change_timer_cb (s : BridgeState) : BridgeState × List Action :=
  ({ s with boot := true, rst := true },
   [Action.logInfo, Action.gpioWrite true true])

/-- Passage of dt microseconds as seen by the esp timer service: a pending
one-shot timer whose remaining time is at most dt fires its callback once
and is disarmed; otherwise the remaining time just decreases. -/
def elapse (dt : Nat) (s : BridgeState) : BridgeState × List Action :=
  match s.timer with
  | none => (s, [])
  | some r =>
    if r ≤ dt then state_change_timer_cb { s with timer := none }
    else ({ s with timer := some (r - dt) }, [])

/-- An input to the signal translator: either a line-state callback from
the host or the passage of dt microseconds of real time. -/
inductive LineEv where
  | line (dtr rts : Bool) : LineEv
  | tick (dt : Nat) : LineEv
deriving DecidableEq, Repr

/-- One signal-translator input applied to the bridge state. -/
def lineStep (e : LineEv) (s : BridgeState) : BridgeState × List Action :=
  match e with
  | LineEv.line dtr rts => tud_cdc_line_state_cb dtr rts s
  | LineEv.tick dt => elapse dt s

/-- A sequence of signal-translator inputs, with the concatenated trace. -/
def lineRun : List LineEv → BridgeState → BridgeState × List Action
  | [], s => (s, [])
  | e :: es, s =>
    let p := lineStep e s
    let q := lineRun es p.1
    (q.1, p.2 ++ q.2)

/-- One iteration of uart_event_task (serial.c lines 49-99), processing the
event at the head of the UART event queue.  The result is none exactly when
the body would block without a finite bound: waiting in xQueueReceive with
portMAX_DELAY on an empty queue (line 54), or waiting in uart_read_bytes
with portMAX_DELAY for more bytes than the driver holds (line 58).  On
UART_DATA with reading enabled the event.size bytes are read and sent to
the ring buffer with the 10 ms timeout of line 63; xRingbufferSend is
all-or-nothing, so on timeout nothing is enqueued, the free size is logged
(lines 64-66) and the task delays 10 ms (line 67).  UART_FIFO_OVF and
UART_BUFFER_FULL flush the driver input and reset the event queue
(lines 71-80).  Every branch ends with the taskYIELD of line 94 and the
vTaskDelay of line 96. -/
def uart_event_step (s : BridgeState) : Option (BridgeState × List Action) :=
  match s.uart_queue with
  | [] => none
  | event :: rest =>
    let s := { s with uart_queue := rest }
    match event with
    | uart_event_t.UART_DATA size =>
      if s.serial_read_enabled then
        if size ≤ s.uartRx.length then
          let dtmp := s.uartRx.take size
          let s1 := { s with uartRx := s.uartRx.drop size }
          if s1.usb_sendbuf.length + size ≤ USB_SEND_RINGBUFFER_SIZE then
            some ({ s1 with usb_sendbuf := s1.usb_sendbuf ++ dtmp },
                  [Action.readBytes size, Action.pushOk size, Action.yield,
                   Action.delayMs 10])
          else
            some (s1,
                  [Action.readBytes size,
                   Action.pushTimeout
                     (USB_SEND_RINGBUFFER_SIZE - s1.usb_sendbuf.length),
                   Action.delayMs 10, Action.yield, Action.delayMs 10])
        else none
      else some (s, [Action.yield, Action.delayMs 10])
    | uart_event_t.UART_FIFO_OVF =>
      some ({ s with uartRx := [], uart_queue := [] },
            [Action.logWarn, Action.flushInput, Action.queueReset,
             Action.yield, Action.delayMs 10])
    | uart_event_t.UART_BUFFER_FULL =>
      some ({ s with uartRx := [], uart_queue := [] },
            [Action.logWarn, Action.flushInput, Action.queueReset,
             Action.yield, Action.delayMs 10])
    | uart_event_t.UART_BREAK =>
      some (s, [Action.logWarn, Action.yield, Action.delayMs 10])
    | uart_event_t.UART_PARITY_ERR =>
      some (s, [Action.logWarn, Action.yield, Action.delayMs 10])
    | uart_event_t.UART_FRAME_ERR =>
      some (s, [Action.logWarn, Action.yield, Action.delayMs 10])
    | uart_event_t.other _ =>
      some (s, [Action.logWarn, Action.yield, Action.delayMs 10])

/-- n iterations of uart_event_task; none as soon as one iteration would
block without a finite bound. -/
def uart_event_run : Nat → BridgeState → Option (BridgeState × List Action)
  | 0, s => some (s, [])
  | n + 1, s =>
    match uart_event_step s with
    | none => none
    | some (s1, tr) =>
      match uart_event_run n s1 with
      | none => none
      | some (s2, tr2) => some (s2, tr ++ tr2)

/-- State of the inner send loop of usb_sender_task
(serial.c lines 113-126): bytes already transferred, bytes still to send,
the retry counter try_cnt, and an index i used to sample the host
environment (the CDC write fifo free space) over time. -/
structure SendSt where
  transferred : Nat
  to_send : Nat
  try_cnt : Nat
  i : Nat
deriving DecidableEq, Repr

/-- One iteration of the inner send loop (serial.c lines 113-126).  env i
is the CDC write fifo free space observed at iteration i.  If the free
space is short of to_send and the incremented try_cnt is still below 10,
the body flushes and busy-waits 100 microseconds (lines 116-120);
otherwise tud_cdc_write accepts min free to_send bytes (lines 121-125) and
try_cnt restarts at 0. -/
def sendLoopStep (env : Nat → Nat) (st : SendSt) : SendSt × List Action :=
  let avail := env st.i
  if avail < st.to_send ∧ st.try_cnt + 1 < 10 then
    ({ st with try_cnt := st.try_cnt + 1, i := st.i + 1 },
     [Action.cdcFlush, Action.delayUs 100])
  else
    let t := min avail st.to_send
    ({ transferred := st.transferred + t, to_send := st.to_send - t,
       try_cnt := 0, i := st.i + 1 },
     [Action.cdcWrite t])

/-- The inner send loop run with the given fuel: some final state once
transferred has reached the chunk size (loop guard of line 113), none if
the guard still holds when the fuel is exhausted. -/
def sendLoopRun (env : Nat → Nat) : Nat → SendSt → Option SendSt
  | 0, st => if st.to_send = 0 then some st else none
  | fuel + 1, st =>
    if st.to_send = 0 then some st
    else sendLoopRun env fuel (sendLoopStep env st).1

/-- The action trace of the inner send loop over the given fuel. -/
def sendLoopTrace (env : Nat → Nat) : Nat → SendSt → List Action
  | 0, _ => []
  | fuel + 1, st =>
    if st.to_send = 0 then []
    else (sendLoopStep env st).2 ++ sendLoopTrace env fuel (sendLoopStep env st).1

/-- One iteration of usb_sender_task (serial.c lines 101-135).
xRingbufferReceiveUpTo (line 105) yields up to tx_bufsize bytes, here the
corresponding prefix of the ring contents; when nothing is available the
task delays 100 ms (line 130).  Otherwise the chunk is copied into the
local int_buf (lines 109-110), the ring item is returned — freeing its
space — before any CDC write (line 111), the inner send loop runs on the
private copy, and a final flush follows a completed loop (line 127).  The
returned state is the bridge state from the instant the item was returned:
the rest of the iteration touches only the private copy and the host
port. -/
def usb_sender_iteration (env : Nat → Nat) (tx_bufsize fuel : Nat)
    (s : BridgeState) : BridgeState × List Action :=
  let chunk := s.usb_sendbuf.take tx_bufsize
  if chunk.length = 0 then
    (s, [Action.delayMs 100])
  else
    let st0 : SendSt :=
      { transferred := 0, to_send := chunk.length, try_cnt := 0, i := 0 }
    ({ s with usb_sendbuf := s.usb_sendbuf.drop chunk.length },
     Action.ringReceive chunk.length :: Action.memcpy chunk.length ::
       Action.ringReturn chunk.length ::
         (sendLoopTrace env fuel st0 ++
           if (sendLoopRun env fuel st0).isSome then [Action.cdcFlush] else []))

/-- tud_cdc_rx_cb (serial.c lines 137-157).  Before initialization it only
warns (lines 139-143).  Otherwise tud_cdc_n_read takes up to bufsize bytes
from the CDC receive fifo (line 146); if none were available only a
warning is logged (line 155); otherwise uart_write_bytes accepts
uartAccepts of them (an environment input, line 150) and a shortfall is
only logged (lines 151-153) — the remaining bytes are neither retried nor
requeued. -/
def tud_cdc_rx_cb (bufsize uartAccepts : Nat) (s : BridgeState) :
    BridgeState × List Action :=
  if s.serial_init_finished = false then
    (s, [Action.logWarn])
  else
    let buf := s.hostRx.take bufsize
    let rx_size := buf.length
    let s1 := { s with hostRx := s.hostRx.drop bufsize }
    if 0 < rx_size then
      let transferred := min uartAccepts rx_size
      let s2 := { s1 with uartTx := s1.uartTx ++ buf.take transferred }
      if transferred ≠ rx_size then (s2, [Action.logWarn]) else (s2, [])
    else (s1, [Action.logWarn])

/-- serial_set (serial.c lines 255-258): unconditionally assigns the
read-enable flag, with no initialization guard. -/
def serial_set (enable : Bool) (s : BridgeState) : BridgeState :=
  { s with serial_read_enabled := enable }

/-- The successful tail of start_serial_task (serial.c lines 228-246):
both GPIO levels high, timer created (not armed), an empty ring buffer,
then serial_init_finished and serial_read_enabled both set true. -/
def start_serial_task (s : BridgeState) : BridgeState :=
  { s with boot := true, rst := true, timer := none, usb_sendbuf := [],
           serial_init_finished := true, serial_read_enabled := true }

/-- A ready state used to exercise the definitions: initialization done,
reading enabled, a few bytes in every buffer. -/
def sReady : BridgeState :=
  { serial_init_finished := true
    serial_read_enabled := true
    uartRx := [7, 8, 9]
    uartTx := []
    hostRx := [1, 2, 3]
    uart_queue := []
    usb_sendbuf := [4, 5]
    boot := true
    rst := true
    timer := none }

/-- A state before start_serial_task has completed. -/
def sPre : BridgeState :=
  { serial_init_finished := false
    serial_read_enabled := false
    uartRx := []
    uartTx := []
    hostRx := [1, 2]
    uart_queue := []
    usb_sendbuf := []
    boot := true
    rst := true
    timer := none }

/-- A ready state with one pending DATA event for two of the three
available UART bytes. -/
def sData : BridgeState :=
  { sReady with uart_queue := [uart_event_t.UART_DATA 2] }

/-- A ready state with a pending FIFO-overflow event and two stale bytes
in the driver buffer. -/
def sOvf : BridgeState :=
  { sReady with uart_queue := [uart_event_t.UART_FIFO_OVF], uartRx := [1, 2] }

/-- A ready state with reading disabled and one pending DATA event. -/
def sDis : BridgeState :=
  { sReady with serial_read_enabled := false,
                uart_queue := [uart_event_t.UART_DATA 3] }

/-- The outcome of one uart_event_task iteration on sDis. -/
def pDis : BridgeState × List Action :=
  ({ sDis with uart_queue := [] }, [Action.yield, Action.delayMs 10])

/-- A send-loop state with five bytes left and the retry budget already
exhausted. -/
def stW : SendSt :=
  { transferred := 0, to_send := 5, try_cnt := 9, i := 0 }

/-- A host whose CDC write fifo always reports three free bytes. -/
def envW : Nat → Nat := fun _ => 3

/-- A host whose CDC write fifo always reports sixty-four free bytes. -/
def envCap : Nat → Nat := fun _ => 64

/-- Time passage is invisible while the one-shot timer is not armed. -/
lemma elapse_none (dt : Nat) (s : BridgeState) (h : s.timer = none) :
    elapse dt s = (s, []) := by
  simp [elapse, h]

/-- A run made only of time passage from a state with no armed timer does
nothing and emits nothing. -/
lemma lineRun_ticks_none (dts : List Nat) (s : BridgeState)
    (h : s.timer = none) :
    lineRun (dts.map LineEv.tick) s = (s, []) := by
  induction dts generalizing s with
  | nil => simp [lineRun]
  | cons d ds ih =>
    simp [lineRun, lineStep, elapse_none d s h, ih s h]

/-- A run made only of time passage, from a state whose armed timer has at
least 1 microsecond left and whose total duration covers the remaining
time, fires the state_change_timer callback exactly once. -/
lemma lineRun_ticks_fire (dts : List Nat) (s : BridgeState) (r : Nat)
    (h : s.timer = some r) (h1 : 1 ≤ r) (hsum : r ≤ dts.sum) :
    (lineRun (dts.map LineEv.tick) s).2 =
      [Action.logInfo, Action.gpioWrite true true] := by
  induction dts generalizing s r with
  | nil =>
    simp at hsum
    omega
  | cons d ds ih =>
    simp only [List.map_cons, lineRun, lineStep, elapse, h]
    by_cases hd : r ≤ d
    · rw [if_pos hd]
      have hnone :
          ({ s with timer := none, boot := true, rst := true } :
            BridgeState).timer = none := rfl
      simp [state_change_timer_cb, lineRun_ticks_none ds _ hnone]
    · rw [if_neg hd]
      have h' : ({ s with timer := some (r - d) } : BridgeState).timer =
          some (r - d) := rfl
      simp only [List.sum_cons] at hsum
      have := ih { s with timer := some (r - d) } (r - d) h' (by omega)
        (by omega)
      simpa using this

/-- C2: after initialization, every invocation of the line-state handler
leaves no stale timer behind and acts by the table: on (DTR=0,RTS=0) it
immediately applies BOOT=1,RST=1; on (DTR=0,RTS=1) BOOT=1,RST=0; on
(DTR=1,RTS=0) BOOT=0,RST=1; and on (DTR=1,RTS=1) it writes no GPIO level,
arming instead a fresh one-shot timer of 10 * 1000 microseconds whose
callback applies BOOT=1,RST=1.  The resulting timer field never depends on
the previous one: any pending timer is cancelled first. -/
theorem c2_line_state_table (dtr rts : Bool) (s : BridgeState)
    (h : s.serial_init_finished = true) :
    tud_cdc_line_state_cb dtr rts s =
      (match dtr, rts with
       | false, false =>
         ({ s with timer := none, boot := true, rst := true },
          [Action.stopTimer, Action.logInfo, Action.gpioWrite true true])
       | false, true =>
         ({ s with timer := none, boot := true, rst := false },
          [Action.stopTimer, Action.logInfo, Action.gpioWrite true false])
       | true, false =>
         ({ s with timer := none, boot := false, rst := true },
          [Action.stopTimer, Action.logInfo, Action.gpioWrite false true])
       | true, true =>
         ({ s with timer := some STATE_CHANGE_TIMER_US },
          [Action.stopTimer, Action.armTimer STATE_CHANGE_TIMER_US]))
    ∧ state_change_timer_cb s =
        ({ s with boot := true, rst := true },
         [Action.logInfo, Action.gpioWrite true true])
    ∧ STATE_CHANGE_TIMER_US = 10 * 1000 := by
  refine ⟨?_, rfl, rfl⟩
  cases dtr <;> cases rts <;> simp [tud_cdc_line_state_cb, h]

/-- Witness for c2_line_state_table on a concrete ready state with
DTR=0, RTS=1. -/
theorem c2_line_state_table_witness :
    sReady.serial_init_finished = true ∧
    (tud_cdc_line_state_cb false true sReady =
       ({ sReady with timer := none, boot := true, rst := false },
        [Action.stopTimer, Action.logInfo, Action.gpioWrite true false])
     ∧ state_change_timer_cb sReady =
         ({ sReady with boot := true, rst := true },
          [Action.logInfo, Action.gpioWrite true true])
     ∧ STATE_CHANGE_TIMER_US = 10 * 1000) :=
  ⟨rfl, c2_line_state_table false true sReady rfl⟩

/-- C1: after initialization, the esptool-style sequence (DTR=0,RTS=1)
then (DTR=1,RTS=0) — with arbitrary gap t1, and possibly an intermediate
(DTR=1,RTS=1) sample observed t2 microseconds before the final event with
t2 inside the debounce window — never applies BOOT=1,RST=1 between the
two; while a (DTR=1,RTS=1) event followed only by the passage of time
covering the full debounce window applies BOOT=1,RST=1 exactly once, by
the timer callback. -/
theorem c1_debounce_suppression (s : BridgeState)
    (hinit : s.serial_init_finished = true)
    (t1 t2 : Nat) (h2 : t2 < STATE_CHANGE_TIMER_US)
    (dts : List Nat) (hsum : STATE_CHANGE_TIMER_US ≤ dts.sum) :
    Action.gpioWrite true true ∉
      (lineRun [LineEv.tick t1, LineEv.line true true, LineEv.tick t2,
                LineEv.line true false]
        (tud_cdc_line_state_cb false true s).1).2
    ∧ Action.gpioWrite true true ∉
        (lineRun [LineEv.tick t1, LineEv.line true false]
          (tud_cdc_line_state_cb false true s).1).2
    ∧ List.count (Action.gpioWrite true true)
        (lineRun (LineEv.line true true :: dts.map LineEv.tick) s).2 = 1 := by
  have h2' : ¬ (STATE_CHANGE_TIMER_US ≤ t2) := by omega
  refine ⟨?_, ?_, ?_⟩
  · simp [lineRun, lineStep, tud_cdc_line_state_cb, elapse, hinit, h2']
  · simp [lineRun, lineStep, tud_cdc_line_state_cb, elapse, hinit]
  · have hcb : tud_cdc_line_state_cb true true s =
        ({ s with timer := some STATE_CHANGE_TIMER_US },
         [Action.stopTimer, Action.armTimer STATE_CHANGE_TIMER_US]) := by
      simp [tud_cdc_line_state_cb, hinit]
    have hfire := lineRun_ticks_fire dts
      { s with timer := some STATE_CHANGE_TIMER_US } STATE_CHANGE_TIMER_US
      rfl (by norm_num [STATE_CHANGE_TIMER_US]) hsum
    simp [lineRun, lineStep, hcb, hfire]

/-- Witness for c1_debounce_suppression: gap 5 microseconds, intermediate
(1,1) sample 9999 microseconds before the final transition, and a sustained
(1,1) followed by 4000 + 7000 microseconds of quiet time. -/
theorem c1_debounce_suppression_witness :
    sReady.serial_init_finished = true
    ∧ (9999 : Nat) < STATE_CHANGE_TIMER_US
    ∧ STATE_CHANGE_TIMER_US ≤ ([4000, 7000] : List Nat).sum
    ∧ (Action.gpioWrite true true ∉
         (lineRun [LineEv.tick 5, LineEv.line true true, LineEv.tick 9999,
                   LineEv.line true false]
           (tud_cdc_line_state_cb false true sReady).1).2
       ∧ Action.gpioWrite true true ∉
           (lineRun [LineEv.tick 5, LineEv.line true false]
             (tud_cdc_line_state_cb false true sReady).1).2
       ∧ List.count (Action.gpioWrite true true)
           (lineRun (LineEv.line true true ::
             ([4000, 7000] : List Nat).map LineEv.tick) sReady).2 = 1) :=
  ⟨rfl, by decide, by decide,
   c1_debounce_suppression sReady rfl 5 9999 (by decide) [4000, 7000]
     (by decide)⟩

/-- One completed uart_event_task iteration never changes the read-enable
flag, and with the flag cleared it never changes the relay ring buffer. -/
lemma uart_event_step_frame (s : BridgeState) (p : BridgeState × List Action)
    (h : uart_event_step s = some p) :
    p.1.serial_read_enabled = s.serial_read_enabled
    ∧ (s.serial_read_enabled = false → p.1.usb_sendbuf = s.usb_sendbuf) := by
  rcases hq : s.uart_queue with _ | ⟨ev, rest⟩
  · simp [uart_event_step, hq] at h
  · cases ev with
    | UART_DATA size =>
      simp only [uart_event_step, hq] at h
      split_ifs at h <;>
        first
          | exact Option.noConfusion h
          | (injection h with h; subst h; constructor <;> simp_all)
    | UART_FIFO_OVF =>
      simp only [uart_event_step, hq] at h
      injection h with h; subst h; simp
    | UART_BUFFER_FULL =>
      simp only [uart_event_step, hq] at h
      injection h with h; subst h; simp
    | UART_BREAK =>
      simp only [uart_event_step, hq] at h
      injection h with h; subst h; simp
    | UART_PARITY_ERR =>
      simp only [uart_event_step, hq] at h
      injection h with h; subst h; simp
    | UART_FRAME_ERR =>
      simp only [uart_event_step, hq] at h
      injection h with h; subst h; simp
    | other code =>
      simp only [uart_event_step, hq] at h
      injection h with h; subst h; simp

/-- A completed run of uart_event_task iterations started with the
read-enable flag cleared leaves the relay ring buffer untouched and the
flag cleared. -/
lemma uart_event_run_disabled (n : Nat) (s : BridgeState)
    (p : BridgeState × List Action)
    (hdis : s.serial_read_enabled = false)
    (h : uart_event_run n s = some p) :
    p.1.usb_sendbuf = s.usb_sendbuf ∧ p.1.serial_read_enabled = false := by
  induction n generalizing s p with
  | zero =>
    simp only [uart_event_run] at h
    injection h with h; subst h
    exact ⟨rfl, hdis⟩
  | succ n ih =>
    rcases hs : uart_event_step s with _ | ⟨s1, tr⟩
    · simp only [uart_event_run, hs] at h
      exact Option.noConfusion h
    · rcases hr : uart_event_run n s1 with _ | ⟨s2, tr2⟩
      · simp only [uart_event_run, hs, hr] at h
        exact Option.noConfusion h
      · simp only [uart_event_run, hs, hr] at h
        injection h with h; subst h
        have hf := uart_event_step_frame s (s1, tr) hs
        have h1 : s1.serial_read_enabled = false := by
          rw [hf.1, hdis]
        have h2 := ih s1 (s2, tr2) h1 hr
        exact ⟨by rw [h2.1, hf.2 hdis], h2.2⟩

/-- C4: with the UART event queue nonempty and the driver guarantee that a
DATA(n) event is only delivered once n bytes are buffered, one
uart_event_task iteration completes — the uart_read_bytes call at the head
of the data path does not block without bound — and the only two blocking
relay-buffer operations carry the explicit finite timeouts 10 ms (push)
and 100 ms (pop). -/
theorem c4_bounded_blocking (s : BridgeState)
    (hq : s.uart_queue ≠ [])
    (havail : ∀ size rest,
       s.uart_queue = uart_event_t.UART_DATA size :: rest →
       size ≤ s.uartRx.length) :
    (uart_event_step s).isSome = true
    ∧ RINGBUF_SEND_TIMEOUT_MS = 10
    ∧ RINGBUF_RECEIVE_TIMEOUT_MS = 100 := by
  refine ⟨?_, rfl, rfl⟩
  rcases hqe : s.uart_queue with _ | ⟨ev, rest⟩
  · exact absurd hqe hq
  · cases ev with
    | UART_DATA size =>
      have hs := havail size rest hqe
      simp only [uart_event_step, hqe]
      split_ifs <;> simp_all
    | UART_FIFO_OVF => simp [uart_event_step, hqe]
    | UART_BUFFER_FULL => simp [uart_event_step, hqe]
    | UART_BREAK => simp [uart_event_step, hqe]
    | UART_PARITY_ERR => simp [uart_event_step, hqe]
    | UART_FRAME_ERR => simp [uart_event_step, hqe]
    | other code => simp [uart_event_step, hqe]

/-- Witness for c4_bounded_blocking on a ready state holding one DATA
event for two of three available bytes. -/
theorem c4_bounded_blocking_witness :
    sData.uart_queue ≠ []
    ∧ (∀ size rest,
         sData.uart_queue = uart_event_t.UART_DATA size :: rest →
         size ≤ sData.uartRx.length)
    ∧ ((uart_event_step sData).isSome = true
       ∧ RINGBUF_SEND_TIMEOUT_MS = 10
       ∧ RINGBUF_RECEIVE_TIMEOUT_MS = 100) :=
  ⟨by decide,
   by
     intro size rest h
     simp [sData, sReady] at h
     simp [sData, sReady]
     omega,
   c4_bounded_blocking sData (by decide)
     (by
       intro size rest h
       simp [sData, sReady] at h
       simp [sData, sReady]
       omega)⟩

/-- C5: a DATA(size) event processed with reading enabled reads exactly
size bytes from the driver and appends them to the relay ring buffer when
the 10 ms bounded push succeeds; when the push times out nothing at all is
enqueued, the free capacity of the buffer is logged in the warning, and the
task briefly delays before returning to the event wait. -/
theorem c5_data_path (s : BridgeState) (size : Nat)
    (rest : List uart_event_t)
    (hq : s.uart_queue = uart_event_t.UART_DATA size :: rest)
    (hen : s.serial_read_enabled = true)
    (havail : size ≤ s.uartRx.length) :
    (s.usb_sendbuf.length + size ≤ USB_SEND_RINGBUFFER_SIZE →
       uart_event_step s =
         some ({ s with
                   uart_queue := rest,
                   uartRx := s.uartRx.drop size,
                   usb_sendbuf := s.usb_sendbuf ++ s.uartRx.take size },
               [Action.readBytes size, Action.pushOk size, Action.yield,
                Action.delayMs 10]))
    ∧ (USB_SEND_RINGBUFFER_SIZE < s.usb_sendbuf.length + size →
       uart_event_step s =
         some ({ s with uart_queue := rest, uartRx := s.uartRx.drop size },
               [Action.readBytes size,
                Action.pushTimeout
                  (USB_SEND_RINGBUFFER_SIZE - s.usb_sendbuf.length),
                Action.delayMs 10, Action.yield, Action.delayMs 10]))
    ∧ (s.uartRx.take size).length = size
    ∧ RINGBUF_SEND_TIMEOUT_MS = 10 := by
  refine ⟨?_, ?_, by rw [List.length_take]; omega, rfl⟩
  · intro hcap
    simp [uart_event_step, hq, hen, havail, hcap]
  · intro hcap
    have hcap' :
        ¬ (s.usb_sendbuf.length + size ≤ USB_SEND_RINGBUFFER_SIZE) := by
      omega
    simp [uart_event_step, hq, hen, havail, hcap']

/-- Witness for c5_data_path on sData: two of three bytes are read and
pushed. -/
theorem c5_data_path_witness :
    sData.uart_queue = uart_event_t.UART_DATA 2 :: []
    ∧ sData.serial_read_enabled = true
    ∧ 2 ≤ sData.uartRx.length
    ∧ ((sData.usb_sendbuf.length + 2 ≤ USB_SEND_RINGBUFFER_SIZE →
          uart_event_step sData =
            some ({ sData with
                      uart_queue := [],
                      uartRx := sData.uartRx.drop 2,
                      usb_sendbuf :=
                        sData.usb_sendbuf ++ sData.uartRx.take 2 },
                  [Action.readBytes 2, Action.pushOk 2, Action.yield,
                   Action.delayMs 10]))
       ∧ (USB_SEND_RINGBUFFER_SIZE < sData.usb_sendbuf.length + 2 →
          uart_event_step sData =
            some ({ sData with
                      uart_queue := [],
                      uartRx := sData.uartRx.drop 2 },
                  [Action.readBytes 2,
                   Action.pushTimeout
                     (USB_SEND_RINGBUFFER_SIZE - sData.usb_sendbuf.length),
                   Action.delayMs 10, Action.yield, Action.delayMs 10]))
       ∧ (sData.uartRx.take 2).length = 2
       ∧ RINGBUF_SEND_TIMEOUT_MS = 10) :=
  ⟨rfl, rfl, by decide, c5_data_path sData 2 [] rfl rfl (by decide)⟩

/-- C6: a FIFO-overflow or buffer-full event makes the relay loop flush
the driver input and reset the event queue without blocking, leaves the
relay ring buffer contents untouched, and the loop then processes the next
DATA event normally. -/
theorem c6_overflow_recovery (s : BridgeState) (ev : uart_event_t)
    (rest : List uart_event_t)
    (hq : s.uart_queue = ev :: rest)
    (hev : ev = uart_event_t.UART_FIFO_OVF ∨
           ev = uart_event_t.UART_BUFFER_FULL) :
    uart_event_step s =
      some ({ s with uartRx := [], uart_queue := [] },
            [Action.logWarn, Action.flushInput, Action.queueReset,
             Action.yield, Action.delayMs 10])
    ∧ ({ s with uartRx := [], uart_queue := [] } :
         BridgeState).usb_sendbuf = s.usb_sendbuf
    ∧ (∀ bs : List Nat, s.serial_read_enabled = true →
         s.usb_sendbuf.length + bs.length ≤ USB_SEND_RINGBUFFER_SIZE →
         uart_event_step
             { s with
                 uartRx := bs,
                 uart_queue := [uart_event_t.UART_DATA bs.length] } =
           some ({ s with
                     uartRx := [],
                     uart_queue := [],
                     usb_sendbuf := s.usb_sendbuf ++ bs },
                 [Action.readBytes bs.length, Action.pushOk bs.length,
                  Action.yield, Action.delayMs 10])) := by
  refine ⟨?_, rfl, ?_⟩
  · rcases hev with h | h <;> subst h <;> simp [uart_event_step, hq]
  · intro bs hen hcap
    simp [uart_event_step, hen, hcap]

/-- Witness for c6_overflow_recovery on sOvf. -/
theorem c6_overflow_recovery_witness :
    sOvf.uart_queue = uart_event_t.UART_FIFO_OVF :: []
    ∧ (uart_event_t.UART_FIFO_OVF = uart_event_t.UART_FIFO_OVF ∨
       uart_event_t.UART_FIFO_OVF = uart_event_t.UART_BUFFER_FULL)
    ∧ (uart_event_step sOvf =
         some ({ sOvf with uartRx := [], uart_queue := [] },
               [Action.logWarn, Action.flushInput, Action.queueReset,
                Action.yield, Action.delayMs 10])
       ∧ ({ sOvf with uartRx := [], uart_queue := [] } :
            BridgeState).usb_sendbuf = sOvf.usb_sendbuf
       ∧ (∀ bs : List Nat, sOvf.serial_read_enabled = true →
            sOvf.usb_sendbuf.length + bs.length ≤ USB_SEND_RINGBUFFER_SIZE →
            uart_event_step
                { sOvf with
                    uartRx := bs,
                    uart_queue := [uart_event_t.UART_DATA bs.length] } =
              some ({ sOvf with
                        uartRx := [],
                        uart_queue := [],
                        usb_sendbuf := sOvf.usb_sendbuf ++ bs },
                    [Action.readBytes bs.length, Action.pushOk bs.length,
                     Action.yield, Action.delayMs 10]))) :=
  ⟨rfl, Or.inl rfl,
   c6_overflow_recovery sOvf uart_event_t.UART_FIFO_OVF [] rfl (Or.inl rfl)⟩

/-- C7: while the read-enable flag is cleared, any completed run of
uart_event_task iterations leaves the relay ring buffer exactly as it was
— DATA events are discarded from the relay path and nothing queued before
the toggle is lost — and the flag itself stays cleared; serial_set toggles
the flag without touching the ring buffer; and no other modelled operation
(relay iteration, host receive callback, line-state callback, timer
callback, sender iteration) ever changes the flag. -/
theorem c7_read_enable_gate (n : Nat) (s : BridgeState)
    (p : BridgeState × List Action) (e : Bool)
    (hdis : s.serial_read_enabled = false)
    (hrun : uart_event_run n s = some p) :
    p.1.usb_sendbuf = s.usb_sendbuf
    ∧ p.1.serial_read_enabled = false
    ∧ (serial_set e p.1).usb_sendbuf = p.1.usb_sendbuf
    ∧ (serial_set e p.1).serial_read_enabled = e
    ∧ (∀ t q, uart_event_step t = some q →
         q.1.serial_read_enabled = t.serial_read_enabled)
    ∧ (∀ dtr rts t,
         (tud_cdc_line_state_cb dtr rts t).1.serial_read_enabled =
           t.serial_read_enabled)
    ∧ (∀ b a t, (tud_cdc_rx_cb b a t).1.serial_read_enabled =
         t.serial_read_enabled)
    ∧ (∀ t, (state_change_timer_cb t).1.serial_read_enabled =
         t.serial_read_enabled)
    ∧ (∀ env b f t,
         (usb_sender_iteration env b f t).1.serial_read_enabled =
           t.serial_read_enabled) := by
  obtain ⟨h1, h2⟩ := uart_event_run_disabled n s p hdis hrun
  refine ⟨h1, h2, rfl, rfl,
    fun t q hq => (uart_event_step_frame t q hq).1, ?_, ?_, fun t => rfl, ?_⟩
  · intro dtr rts t
    simp only [tud_cdc_line_state_cb]
    split_ifs <;> rfl
  · intro b a t
    simp only [tud_cdc_rx_cb]
    split_ifs <;> rfl
  · intro env b f t
    simp only [usb_sender_iteration]
    split_ifs <;> rfl

/-- Witness for c7_read_enable_gate: one iteration over sDis. -/
theorem c7_read_enable_gate_witness :
    sDis.serial_read_enabled = false
    ∧ uart_event_run 1 sDis = some pDis
    ∧ (pDis.1.usb_sendbuf = sDis.usb_sendbuf
       ∧ pDis.1.serial_read_enabled = false
       ∧ (serial_set true pDis.1).usb_sendbuf = pDis.1.usb_sendbuf
       ∧ (serial_set true pDis.1).serial_read_enabled = true
       ∧ (∀ t q, uart_event_step t = some q →
            q.1.serial_read_enabled = t.serial_read_enabled)
       ∧ (∀ dtr rts t,
            (tud_cdc_line_state_cb dtr rts t).1.serial_read_enabled =
              t.serial_read_enabled)
       ∧ (∀ b a t, (tud_cdc_rx_cb b a t).1.serial_read_enabled =
            t.serial_read_enabled)
       ∧ (∀ t, (state_change_timer_cb t).1.serial_read_enabled =
            t.serial_read_enabled)
       ∧ (∀ env b f t,
            (usb_sender_iteration env b f t).1.serial_read_enabled =
              t.serial_read_enabled)) :=
  ⟨rfl, by decide, c7_read_enable_gate 1 sDis pDis true rfl (by decide)⟩

/-- C8: invoked before initialization has completed, both host-transport
callbacks only log a warning and leave the whole bridge state — UART
buffers, GPIO levels and the debounce timer included — untouched; after
initialization, a receive callback that reads zero bytes only logs a
warning, and when the UART accepts fewer bytes than the received slice the
shortfall is only logged: exactly the accepted prefix reaches the UART and
nothing is retried or requeued. -/
theorem c8_defensive_callbacks (s : BridgeState) (bufsize uartAccepts : Nat)
    (dtr rts : Bool) :
    (s.serial_init_finished = false →
       tud_cdc_rx_cb bufsize uartAccepts s = (s, [Action.logWarn])
       ∧ tud_cdc_line_state_cb dtr rts s = (s, [Action.logWarn]))
    ∧ (s.serial_init_finished = true → s.hostRx = [] →
       tud_cdc_rx_cb bufsize uartAccepts s =
         ({ s with hostRx := s.hostRx.drop bufsize }, [Action.logWarn]))
    ∧ (s.serial_init_finished = true →
       uartAccepts < (s.hostRx.take bufsize).length →
       tud_cdc_rx_cb bufsize uartAccepts s =
         ({ s with
              hostRx := s.hostRx.drop bufsize,
              uartTx :=
                s.uartTx ++ (s.hostRx.take bufsize).take uartAccepts },
          [Action.logWarn])) := by
  refine ⟨?_, ?_, ?_⟩
  · intro hpre
    constructor <;> simp [tud_cdc_rx_cb, tud_cdc_line_state_cb, hpre]
  · intro hinit hhost
    simp [tud_cdc_rx_cb, hinit, hhost]
  · intro hinit hlt
    rw [List.length_take, lt_min_iff] at hlt
    have hb0 : 0 < bufsize := by omega
    have hh0 : 0 < s.hostRx.length := by omega
    have hI : uartAccepts ⊓ (bufsize ⊓ s.hostRx.length) = uartAccepts := by
      omega
    have hne : ¬ (uartAccepts = bufsize ⊓ s.hostRx.length) := by
      omega
    simp [tud_cdc_rx_cb, hinit, hb0, hh0, hlt.1, hlt.2, hI, hne]

/-- Witness for c8_defensive_callbacks on the pre-initialization state. -/
theorem c8_defensive_callbacks_witness :
    ((sPre.serial_init_finished = false →
        tud_cdc_rx_cb 64 0 sPre = (sPre, [Action.logWarn])
        ∧ tud_cdc_line_state_cb false true sPre = (sPre, [Action.logWarn]))
     ∧ (sPre.serial_init_finished = true → sPre.hostRx = [] →
        tud_cdc_rx_cb 64 0 sPre =
          ({ sPre with hostRx := sPre.hostRx.drop 64 }, [Action.logWarn]))
     ∧ (sPre.serial_init_finished = true →
        0 < (sPre.hostRx.take 64).length →
        tud_cdc_rx_cb 64 0 sPre =
          ({ sPre with
               hostRx := sPre.hostRx.drop 64,
               uartTx := sPre.uartTx ++ (sPre.hostRx.take 64).take 0 },
           [Action.logWarn])))
    ∧ sPre.serial_init_finished = false
    ∧ tud_cdc_rx_cb 64 0 sPre = (sPre, [Action.logWarn]) :=
  ⟨c8_defensive_callbacks sPre 64 0 false true, rfl,
   (c8_defensive_callbacks sPre 64 0 false true).1 rfl |>.1⟩

/-- C10: serial_set assigns the read-enable flag unconditionally — it has
no initialization guard, so an early call takes effect while the guarded
host-transport callbacks are still no-ops, before start_serial_task sets
the flag itself. -/
theorem c10_serial_set_unconditional (e : Bool) (s : BridgeState)
    (bufsize uartAccepts : Nat) (dtr rts : Bool)
    (hpre : s.serial_init_finished = false) :
    serial_set e s = { s with serial_read_enabled := e }
    ∧ (serial_set e s).serial_read_enabled = e
    ∧ (serial_set e s).serial_init_finished = false
    ∧ (start_serial_task s).serial_read_enabled = true
    ∧ tud_cdc_rx_cb bufsize uartAccepts s = (s, [Action.logWarn])
    ∧ tud_cdc_line_state_cb dtr rts s = (s, [Action.logWarn]) := by
  refine ⟨rfl, rfl, hpre, rfl, ?_, ?_⟩ <;>
    simp [tud_cdc_rx_cb, tud_cdc_line_state_cb, hpre]

/-- Witness for c10_serial_set_unconditional: enabling before
initialization on sPre. -/
theorem c10_serial_set_unconditional_witness :
    sPre.serial_init_finished = false
    ∧ (serial_set true sPre = { sPre with serial_read_enabled := true }
       ∧ (serial_set true sPre).serial_read_enabled = true
       ∧ (serial_set true sPre).serial_init_finished = false
       ∧ (start_serial_task sPre).serial_read_enabled = true
       ∧ tud_cdc_rx_cb 64 3 sPre = (sPre, [Action.logWarn])
       ∧ tud_cdc_line_state_cb true true sPre = (sPre, [Action.logWarn])) :=
  ⟨rfl, c10_serial_set_unconditional true sPre 64 3 true true rfl⟩

/-- With a host accepting nothing, one send-loop iteration never changes
the number of bytes still to send. -/
lemma sendLoopStep_stalled_to_send (st : SendSt) :
    ((sendLoopStep (fun _ => 0) st).1).to_send = st.to_send := by
  simp only [sendLoopStep]
  split_ifs <;> simp

/-- Under a host accepting nothing, the send loop never completes a
nonempty chunk, whatever the fuel. -/
lemma sendLoopRun_stalled (fuel : Nat) (st : SendSt) (h : 0 < st.to_send) :
    sendLoopRun (fun _ => 0) fuel st = none := by
  induction fuel generalizing st with
  | zero =>
    simp only [sendLoopRun]
    rw [if_neg (by omega)]
  | succ fuel ih =>
    simp only [sendLoopRun]
    rw [if_neg (by omega)]
    exact ih _ (by rw [sendLoopStep_stalled_to_send]; omega)

/-- try_cnt never exceeds 9 after any send-loop iteration: retry bursts
between two write attempts are bounded. -/
lemma sendLoopStep_try_cnt (env : Nat → Nat) (st : SendSt) :
    ((sendLoopStep env st).1).try_cnt ≤ 9 := by
  simp only [sendLoopStep]
  split_ifs with h
  · simp
    omega
  · simp

/-- With the retry budget exhausted, the iteration performs the write
attempt regardless of the reported free space. -/
lemma sendLoopStep_budget_write (env : Nat → Nat) (st : SendSt)
    (h : 9 ≤ st.try_cnt) :
    (sendLoopStep env st).2 =
      [Action.cdcWrite (min (env st.i) st.to_send)] := by
  simp only [sendLoopStep]
  rw [if_neg (by omega)]

/-- C3 counterexample: with a stalled host (zero reported capacity and
every write accepting zero bytes), 200 send-loop iterations — far beyond
the 10-attempt retry budget — still leave a one-byte chunk unsent: the
sender does not proceed past the chunk after its retry budget, because
try_cnt restarts at 0 after every zero-byte write. -/
theorem c3_stalled_host_counterexample :
    sendLoopRun (fun _ => 0) 200
      { transferred := 0, to_send := 1, try_cnt := 0, i := 0 } = none := by
  decide

/-- C3 amended: per chunk the retry burst between two consecutive write
attempts is bounded — try_cnt never exceeds 9, and once the budget is
exhausted the iteration issues the write attempt regardless — but if the
host accepts zero bytes on every write the per-chunk loop never completes
for any amount of fuel: the sender keeps spinning on the chunk with short
delays instead of proceeding past it. -/
theorem c3_bounded_retry_no_escape (env : Nat → Nat) (st : SendSt)
    (fuel : Nat) (h : 0 < st.to_send) :
    sendLoopRun (fun _ => 0) fuel st = none
    ∧ ((sendLoopStep env st).1).try_cnt ≤ 9
    ∧ (9 ≤ st.try_cnt →
       (sendLoopStep env st).2 =
         [Action.cdcWrite (min (env st.i) st.to_send)]) :=
  ⟨sendLoopRun_stalled fuel st h, sendLoopStep_try_cnt env st,
   fun h9 => sendLoopStep_budget_write env st h9⟩

/-- Witness for c3_bounded_retry_no_escape on a five-byte chunk with the
budget already exhausted, against a host reporting three free bytes. -/
theorem c3_bounded_retry_no_escape_witness :
    0 < stW.to_send
    ∧ (sendLoopRun (fun _ => 0) 42 stW = none
       ∧ ((sendLoopStep envW stW).1).try_cnt ≤ 9
       ∧ (9 ≤ stW.try_cnt →
          (sendLoopStep envW stW).2 =
            [Action.cdcWrite (min (envW stW.i) stW.to_send)])) :=
  ⟨by decide, c3_bounded_retry_no_escape envW stW 42 (by decide)⟩

/-- C9: in a sender iteration that drains a nonempty chunk, the trace
starts with the ring receive, the copy into the private local buffer and
the return of the ring item, in that order, before any CDC write can
appear; the resulting ring-buffer state drops exactly the chunk and is the
same whatever the host does and however long the write loop runs — space
is reclaimed independently of delivery progress and dequeued bytes are
never re-enqueued. -/
theorem c9_return_before_write (env1 env2 : Nat → Nat)
    (tx_bufsize fuel1 fuel2 : Nat) (s : BridgeState)
    (hne : s.usb_sendbuf ≠ []) (hb : 0 < tx_bufsize) :
    (usb_sender_iteration env1 tx_bufsize fuel1 s).1 =
      { s with usb_sendbuf :=
          s.usb_sendbuf.drop (s.usb_sendbuf.take tx_bufsize).length }
    ∧ (usb_sender_iteration env1 tx_bufsize fuel1 s).1 =
        (usb_sender_iteration env2 tx_bufsize fuel2 s).1
    ∧ (∃ rest, (usb_sender_iteration env1 tx_bufsize fuel1 s).2 =
         Action.ringReceive (s.usb_sendbuf.take tx_bufsize).length ::
           Action.memcpy (s.usb_sendbuf.take tx_bufsize).length ::
             Action.ringReturn (s.usb_sendbuf.take tx_bufsize).length ::
               rest)
    ∧ (usb_sender_iteration env1 tx_bufsize fuel1 s).1.usb_sendbuf.length +
        (s.usb_sendbuf.take tx_bufsize).length = s.usb_sendbuf.length := by
  have hpos : 0 < s.usb_sendbuf.length := List.length_pos.mpr hne
  have hb0 : ¬ (tx_bufsize = 0) := by omega
  refine ⟨?_, ?_, ?_, ?_⟩
  · simp [usb_sender_iteration, hb0, hne]
  · simp [usb_sender_iteration, hb0, hne]
  · refine ⟨sendLoopTrace env1 fuel1
      { transferred := 0, to_send := (s.usb_sendbuf.take tx_bufsize).length,
        try_cnt := 0, i := 0 } ++
        (if (sendLoopRun env1 fuel1
              { transferred := 0,
                to_send := (s.usb_sendbuf.take tx_bufsize).length,
                try_cnt := 0, i := 0 }).isSome
         then [Action.cdcFlush] else []), ?_⟩
    simp [usb_sender_iteration, hb0, hne]
  · simp [usb_sender_iteration, hb0, hne, List.length_drop,
      List.length_take]

/-- Witness for c9_return_before_write on the ready state against a
capacious host. -/
theorem c9_return_before_write_witness :
    sReady.usb_sendbuf ≠ [] ∧ 0 < 64
    ∧ ((usb_sender_iteration envCap 64 100 sReady).1 =
         { sReady with usb_sendbuf :=
             sReady.usb_sendbuf.drop (sReady.usb_sendbuf.take 64).length }
       ∧ (usb_sender_iteration envCap 64 100 sReady).1 =
           (usb_sender_iteration envCap 64 100 sReady).1
       ∧ (∃ rest, (usb_sender_iteration envCap 64 100 sReady).2 =
            Action.ringReceive (sReady.usb_sendbuf.take 64).length ::
              Action.memcpy (sReady.usb_sendbuf.take 64).length ::
                Action.ringReturn (sReady.usb_sendbuf.take 64).length ::
                  rest)
       ∧ (usb_sender_iteration envCap 64 100
            sReady).1.usb_sendbuf.length +
           (sReady.usb_sendbuf.take 64).length =
             sReady.usb_sendbuf.length) :=
  ⟨by decide, by decide,
   c9_return_before_write envCap envCap 64 100 100 sReady (by decide)
     (by decide)⟩

end EUB
